import Mathlib

/-!
Verification development for the hyperplane tracker
(`src/tracking/hyperplane.py`).

The tracker core (`HyperplaneTracker.__init__`, `initialize`, `_synthesis`,
`_train`, `update`) is embedded below as pure Lean functions over exact
rational arithmetic.  The geometry/sampling primitives (`tracking.utils`)
and the sklearn ridge regressor are external collaborators (spec §1
excludes them from the core); they are modelled from the spec §4.1/§4.3
either as concrete definitions (homography algebra, which the spec fixes
exactly) or as fields of an environment structure `Env` (frame sampling,
min-max normalization, warp-from-corners construction, ridge fitting).
Randomness (`utils.random_hom`) is an injectable stream, as spec §9
directs.  Exceptions raised by the Python code are modelled with `Except`,
the error value carrying the tracker state left behind by the aborted
call (Python mutation persists past a raised exception).
-/

namespace HyperTrack

/-- A 3×3 homogeneous projective matrix with exact rational entries,
entry `aRC` being row `R`, column `C` (the shape of every warp and of the
random homographies `H`). -/
structure Mat3 where
  a00 : ℚ
  a01 : ℚ
  a02 : ℚ
  a10 : ℚ
  a11 : ℚ
  a12 : ℚ
  a20 : ℚ
  a21 : ℚ
  a22 : ℚ
deriving DecidableEq, Repr

/-- The identity homography. -/
def mat3Id : Mat3 := ⟨1, 0, 0, 0, 1, 0, 0, 0, 1⟩

/-- Matrix product, `np.matmul` on 3×3 arrays. -/
def mat3Mul (A B : Mat3) : Mat3 :=
  ⟨A.a00 * B.a00 + A.a01 * B.a10 + A.a02 * B.a20,
   A.a00 * B.a01 + A.a01 * B.a11 + A.a02 * B.a21,
   A.a00 * B.a02 + A.a01 * B.a12 + A.a02 * B.a22,
   A.a10 * B.a00 + A.a11 * B.a10 + A.a12 * B.a20,
   A.a10 * B.a01 + A.a11 * B.a11 + A.a12 * B.a21,
   A.a10 * B.a02 + A.a11 * B.a12 + A.a12 * B.a22,
   A.a20 * B.a00 + A.a21 * B.a10 + A.a22 * B.a20,
   A.a20 * B.a01 + A.a21 * B.a11 + A.a22 * B.a21,
   A.a20 * B.a02 + A.a21 * B.a12 + A.a22 * B.a22⟩

/-- Determinant of a 3×3 matrix. -/
def mat3Det (A : Mat3) : ℚ :=
  A.a00 * (A.a11 * A.a22 - A.a12 * A.a21)
  - A.a01 * (A.a10 * A.a22 - A.a12 * A.a20)
  + A.a02 * (A.a10 * A.a21 - A.a11 * A.a20)

/-- Modelled from the spec: matrix inverse (`np.linalg.inv`), computed by the
adjugate formula; fails (`LinAlgError`) exactly on a singular matrix. -/
def mat3Inv (A : Mat3) : Option Mat3 :=
  let d := mat3Det A
  if d = 0 then none
  else some
    ⟨(A.a11 * A.a22 - A.a12 * A.a21) / d,
     (A.a02 * A.a21 - A.a01 * A.a22) / d,
     (A.a01 * A.a12 - A.a02 * A.a11) / d,
     (A.a12 * A.a20 - A.a10 * A.a22) / d,
     (A.a00 * A.a22 - A.a02 * A.a20) / d,
     (A.a02 * A.a10 - A.a00 * A.a12) / d,
     (A.a10 * A.a21 - A.a11 * A.a20) / d,
     (A.a01 * A.a20 - A.a00 * A.a21) / d,
     (A.a00 * A.a11 - A.a01 * A.a10) / d⟩

/-- Modelled from the spec: `utils.normalize_hom` — "normalize a homography
matrix by dividing by its bottom-right entry" (spec §4.1); a zero
bottom-right entry is the numerical failure contemplated by spec §7. -/
def normalize_hom (A : Mat3) : Option Mat3 :=
  if A.a22 = 0 then none
  else some
    ⟨A.a00 / A.a22, A.a01 / A.a22, A.a02 / A.a22,
     A.a10 / A.a22, A.a11 / A.a22, A.a12 / A.a22,
     A.a20 / A.a22, A.a21 / A.a22, A.a22 / A.a22⟩

/-- Modelled from the spec: `utils.make_hom` — "conversion between an
8-vector of update parameters and the full 3×3 update matrix (inverse of
flattening, with the 9th entry implicitly fixed at 1)" (spec §4.1). -/
def make_hom (p : List ℚ) : Mat3 :=
  ⟨p.getD 0 0, p.getD 1 0, p.getD 2 0,
   p.getD 3 0, p.getD 4 0, p.getD 5 0,
   p.getD 6 0, p.getD 7 0, 1⟩

/-- The first 8 entries of a row-major flattening of a 3×3 matrix: the code's
`warps.reshape(-1, 9)[:, :-1]` applied to one matrix. -/
def hFlat8 (A : Mat3) : List ℚ :=
  [A.a00, A.a01, A.a02, A.a10, A.a11, A.a12, A.a20, A.a21]

/-- A 2-D point with rational coordinates. -/
abbrev Pt := ℚ × ℚ

/-- Modelled from the spec: applying a warp to one point — "projective
transform, i.e., divide by homogeneous coordinate" (spec §4.1). -/
def applyPt (A : Mat3) (p : Pt) : Pt :=
  let w := A.a20 * p.1 + A.a21 * p.2 + A.a22
  ((A.a00 * p.1 + A.a01 * p.2 + A.a02) / w,
   (A.a10 * p.1 + A.a11 * p.2 + A.a12) / w)

/-- Modelled from the spec: `utils.apply_to_pts`, a warp applied to a list of
points. -/
def apply_to_pts (A : Mat3) (ps : List Pt) : List Pt :=
  ps.map (applyPt A)

/-- Modelled from the spec: `utils._SQUARE`, the canonical unit square whose
image under the warp is the tracked corner set (spec §3 "Corners"). -/
def _SQUARE : List Pt := [(0, 0), (1, 0), (1, 1), (0, 1)]

/-- `np.round(...).astype(int)` on a list of points: integer pixel corners. -/
def roundPts (ps : List Pt) : List (Int × Int) :=
  ps.map (fun p => (round p.1, round p.2))

/-- A patch, stored flattened: the list of its pixel intensities
(`Np` entries for a sub-sampled patch). -/
abbrev Patch := List ℚ

/-- Pixel-wise difference of two equally-shaped patches. -/
def patchSub (p q : Patch) : Patch :=
  List.zipWith (fun a b => a - b) p q

/-- Sum of squared pixel differences,
`np.sum(np.square(candidate_patch - self.template))`. -/
def ssd (p q : Patch) : ℚ :=
  (List.zipWith (fun a b => (a - b) ^ 2) p q).sum

/-- The code's corner idiom `np.round(utils.apply_to_pts(w, utils._SQUARE)).astype(int)`
(lines 89, 129, 152, 172): the warp's image of the canonical unit square,
rounded to integer pixel coordinates. -/
def warpCorners (w : Mat3) : List (Int × Int) :=
  roundPts (apply_to_pts w _SQUARE)

/-- Trained ridge-regressor weights, spec §3 "Regressor weights": "a linear
map (weight matrix + optional intercept) from an appearance-difference
vector to an 8-parameter update vector". -/
structure Learner where
  coef : List (List ℚ)
  intercept : List ℚ
deriving DecidableEq, Repr

/-- Dot product of two rational vectors. -/
def dotQ (u v : List ℚ) : ℚ :=
  (List.zipWith (fun a b => a * b) u v).sum

/-- Modelled from the spec: sklearn `learner.predict` on a single row —
"Inference: given a single appearance-difference vector, produce an
8-parameter estimate; deterministic given fixed weights" (spec §4.3):
`coef · x + intercept`, row by row. -/
def ridgePredict (L : Learner) (x : List ℚ) : List ℚ :=
  List.zipWith (fun row b => dotQ row x + b) L.coef L.intercept

/-- The recognized configuration options (spec §6), fields named as the
code reads them (`self.config.…`). -/
structure Config where
  REGION_SHAPE : Nat × Nat
  Np : Nat
  MOTION_PARAMS : List (ℚ × ℚ)
  NUM_SYNTHESIS : Nat
  LAMBD : ℚ
  MAX_ITER : Nat
  DEBUG : Bool
deriving DecidableEq, Repr

/-- The error taxonomy of spec §7, plus the generic numerical failure
(numpy `LinAlgError` / division failure) that aborts a call. -/
inductive TrackerError where
  | NotInitialized
  | InvalidGeometry
  | TrainingFailure
  | NumericalFailure
deriving DecidableEq, Repr

/-- The external collaborators of spec §1/§4.1/§4.3, abstracted: frame
sampling and patch normalization (`utils.sample_region`,
`utils.normalize_minmax`), warp construction from corners
(`utils.square_to_corners_warp`), and the ridge fit (sklearn
`Ridge(alpha).fit`, `none` being the fatal `TrainingFailure` of spec §7).
`α` is the frame type.  `sample_region` takes the frame, integer corners,
`REGION_SHAPE` and `Np`, as at every call site in the code. -/
structure Env (α : Type) where
  sample_region : α → List (Int × Int) → Nat × Nat → Nat → Patch
  normalize_minmax : Patch → Patch
  square_to_corners_warp : List (Int × Int) → Mat3
  ridgeFit : ℚ → List (List ℚ) → List (List ℚ) → Option Learner

/-- The code's sampling idiom (lines 40–44, 90–94, 130–134, 153–157):
`normalize_minmax(np.float32(sample_region(frame, corners, REGION_SHAPE, Np)))`. -/
def samplePatch (env : Env α) (cfg : Config) (frame : α)
    (corners : List (Int × Int)) : Patch :=
  env.normalize_minmax (env.sample_region frame corners cfg.REGION_SHAPE cfg.Np)

/-- The tracker's session state (spec §3 "Tracker session state"):
`config` and `initialized` are set by `__init__`; `frame`, `warp`,
`template` and `learners` are the attributes installed by `initialize`
(a fresh tracker carries the stated defaults in their place; `update`
consults `initialized` before ever reading them).  The transient training
sets `X`, `Y` (spec §3 "Training pair set") are passed between synthesis
and training rather than stored.  The DEBUG-only trajectory recording is
part of the excluded visualization collaborator (spec §1). -/
structure HyperplaneTracker (α : Type) where
  config : Config
  initialized : Bool
  frame : α
  warp : Mat3
  template : Patch
  learners : List Learner
deriving DecidableEq, Repr

/-- `HyperplaneTracker.__init__`: stores the configuration and clears the
status flag (`a` stands in for the not-yet-assigned frame attribute). -/
def mkTracker (config : Config) (a : α) : HyperplaneTracker α :=
  { config := config
    initialized := false
    frame := a
    warp := mat3Id
    template := []
    learners := [] }

/-- One trial of the `_synthesis` inner loop (lines 82–95): draw `H`,
invert it (`LinAlgError` on a singular draw aborts), compute the disturbed
warp `normalize_hom(warp · H⁻¹)` (its failure aborts), sample and
normalize the disturbed patch at the rounded disturbed corners. -/
def synthTrial (env : Env α) (cfg : Config) (frame : α) (warp : Mat3)
    (H : Mat3) : Option Patch :=
  match mat3Inv H with
  | none => none
  | some Hinv =>
    match normalize_hom (mat3Mul warp Hinv) with
    | none => none
    | some disturbed_warp =>
      let disturbed_corners := warpCorners disturbed_warp
      some (samplePatch env cfg frame disturbed_corners)

/-- The `_synthesis` inner loop over the listed trial indices
(`for i in range(NUM_SYNTHESIS)`): accumulates, in order, the disturbed
patches and the drawn homographies `H`; the first failing trial aborts
the whole call. -/
def synthTrials (env : Env α) (cfg : Config) (frame : α) (warp : Mat3)
    (rand : Nat → Mat3) : List Nat → Option (List Patch × List Mat3)
  | [] => some ([], [])
  | i :: rest =>
    match synthTrial env cfg frame warp (rand i) with
    | none => none
    | some patch =>
      match synthTrials env cfg frame warp rand rest with
      | none => none
      | some (ps, hs) => some (patch :: ps, rand i :: hs)

/-- One motion scale of `_synthesis` (lines 77–100): run `NUM_SYNTHESIS`
trials with the scale's slice of the random stream, then form the feature
matrix `X = (patches - template).reshape(-1, Np)` and the target matrix
`Y = warps.reshape(-1, 9)[:, :-1]`, row-aligned.  (`σ_d`, `σ_t` of the
motion scale parameterize the random draw itself and so live inside the
injected stream `rand`.) -/
def synthScale (env : Env α) (cfg : Config) (frame : α) (warp : Mat3)
    (template : Patch) (rand : Nat → Mat3) :
    Option (List (List ℚ) × List (List ℚ)) :=
  match synthTrials env cfg frame warp rand (List.range cfg.NUM_SYNTHESIS) with
  | none => none
  | some (patches, warps) =>
    some (patches.map (fun p => patchSub p template), warps.map hFlat8)

/-- The outer loop of `_synthesis` over the motion scales (line 75), the
per-call random stream consumed sequentially: scale `s` draws trials
`s·NUM_SYNTHESIS … s·NUM_SYNTHESIS + NUM_SYNTHESIS − 1`. -/
def synthesisAll (env : Env α) (cfg : Config) (frame : α) (warp : Mat3)
    (template : Patch) (rand : Nat → Mat3) :
    List Nat → Option (List (List (List ℚ)) × List (List (List ℚ)))
  | [] => some ([], [])
  | s :: rest =>
    match synthScale env cfg frame warp template
        (fun i => rand (s * cfg.NUM_SYNTHESIS + i)) with
    | none => none
    | some (X, Y) =>
      match synthesisAll env cfg frame warp template rand rest with
      | none => none
      | some (Xs, Ys) => some (X :: Xs, Y :: Ys)

/-- `_train` (lines 109–118): one ridge fit per motion scale, in order; a
fit failure raises, leaving the already-fitted learners behind (the error
value carries that partial list). -/
def trainAll (env : Env α) (cfg : Config) :
    List (List (List ℚ)) → List (List (List ℚ)) →
    Except (List Learner) (List Learner)
  | [], _ => .ok []
  | _ :: _, [] => .error []
  | X :: Xs, Y :: Ys =>
    match env.ridgeFit cfg.LAMBD X Y with
    | none => .error []
    | some L =>
      match trainAll env cfg Xs Ys with
      | .error Ls => .error (L :: Ls)
      | .ok Ls => .ok (L :: Ls)

/-- `HyperplaneTracker.initialize` (lines 32–69, named `initialise` here):
store the frame, build the warp from the corners, sample and normalize the
template, then run synthesis and training; `initialized` is assigned (to
`True`) only when `_synthesis` returns.  On an abort the error value
carries the state the raised exception leaves behind: frame, warp and
template already replaced, `initialized` and (on a synthesis abort)
`learners` untouched.  The DEBUG visualization block (lines 46–66) is the
excluded plotting collaborator and touches none of these fields. -/
def initialise (env : Env α) (rand : Nat → Mat3) (t : HyperplaneTracker α)
    (frame : α) (corners : List (Int × Int)) :
    Except (TrackerError × HyperplaneTracker α) (HyperplaneTracker α) :=
  let warp := env.square_to_corners_warp corners
  let template := samplePatch env t.config frame corners
  let t1 : HyperplaneTracker α :=
    { t with frame := frame, warp := warp, template := template }
  match synthesisAll env t.config frame warp template rand
      (List.range t.config.MOTION_PARAMS.length) with
  | none => .error (.NumericalFailure, t1)
  | some (Xs, Ys) =>
    match trainAll env t.config Xs Ys with
    | .error Ls => .error (.TrainingFailure, { t1 with learners := Ls })
    | .ok Ls => .ok { t1 with learners := Ls, initialized := true }

/-- Python's `scores.index(min(scores))`, first half: the minimum of a
list (`ValueError`, hence `none`, on an empty list). -/
def minList : List ℚ → Option ℚ
  | [] => none
  | x :: xs =>
    match minList xs with
    | none => some x
    | some m => some (if x ≤ m then x else m)

/-- `scores.index(min(scores))` (line 165): the first index holding the
minimal score. -/
def selectIdx (scores : List ℚ) : Option Nat :=
  match minList scores with
  | none => none
  | some m => some (scores.findIdx (fun s => s == m))

/-- One learner's turn in the candidate loop of `update` (lines 142–162):
predict the 8 parameters from `ΔI`, expand them to the update matrix,
normalize the composed candidate warp (failure aborts the call), sample
and normalize the candidate patch, and pair the SSD score with the update
matrix that is stored in `candidates`. -/
def candidateStep (env : Env α) (cfg : Config) (template : Patch) (frame : α)
    (warp : Mat3) (deltaI : List ℚ) (L : Learner) : Option (ℚ × Mat3) :=
  let p := ridgePredict L deltaI
  let update_warp := make_hom p
  match normalize_hom (mat3Mul warp update_warp) with
  | none => none
  | some candidate_warp =>
    let candidate_corners := warpCorners candidate_warp
    let candidate_patch := samplePatch env cfg frame candidate_corners
    some (ssd candidate_patch template, update_warp)

/-- The candidate loop over `self.learners`, building the aligned
`scores`/`candidates` lists; the first failing learner aborts the call. -/
def collectCandidates (env : Env α) (cfg : Config) (template : Patch)
    (frame : α) (warp : Mat3) (deltaI : List ℚ) :
    List Learner → Option (List (ℚ × Mat3))
  | [] => some []
  | L :: Ls =>
    match candidateStep env cfg template frame warp deltaI L with
    | none => none
    | some pr =>
      match collectCandidates env cfg template frame warp deltaI Ls with
      | none => none
      | some prs => some (pr :: prs)

/-- One refinement iteration of `update` (lines 128–170) as a transformer
of the warp.  An abort returns `.error` carrying the warp value the
tracker is left with: the incoming warp for a failure up to the selection
(line 165), but the composed, not-yet-normalized product if the final
`normalize_hom` (line 170) were to fail after the line-169 assignment. -/
def updateIter (env : Env α) (cfg : Config) (template : Patch)
    (learners : List Learner) (frame : α) (warp : Mat3) : Except Mat3 Mat3 :=
  let curr_corners := warpCorners warp
  let curr_patch := samplePatch env cfg frame curr_corners
  let deltaI := patchSub curr_patch template
  match collectCandidates env cfg template frame warp deltaI learners with
  | none => .error warp
  | some prs =>
    let scores := prs.map Prod.fst
    let candidates := prs.map Prod.snd
    match selectIdx scores with
    | none => .error warp
    | some idx =>
      let update_warp := candidates.getD idx mat3Id
      let composed := mat3Mul warp update_warp
      match normalize_hom composed with
      | none => .error composed
      | some w' => .ok w'

/-- The `for _ in range(MAX_ITER)` loop of `update` (line 127), threading
the warp through the fixed iteration budget; an aborted iteration
propagates its left-behind warp. -/
def updateLoop (env : Env α) (cfg : Config) (template : Patch)
    (learners : List Learner) (frame : α) : Nat → Mat3 → Except Mat3 Mat3
  | 0, w => .ok w
  | Nat.succ n, w =>
    match updateIter env cfg template learners frame w with
    | .error we => .error we
    | .ok w' => updateLoop env cfg template learners frame n w'

/-- `HyperplaneTracker.update` (lines 120–172): the `initialized` guard
(lines 124–125) raises before anything else; otherwise `MAX_ITER`
refinement iterations run and the rounded image of the canonical unit
square under the final warp is returned.  An error carries the tracker
state the raised exception leaves behind. -/
def update (env : Env α) (t : HyperplaneTracker α) (frame : α) :
    Except (TrackerError × HyperplaneTracker α)
      (HyperplaneTracker α × List (Int × Int)) :=
  if t.initialized then
    match updateLoop env t.config t.template t.learners frame
        t.config.MAX_ITER t.warp with
    | .error we => .error (.NumericalFailure, { t with warp := we })
    | .ok w => .ok ({ t with warp := w }, warpCorners w)
  else .error (.NotInitialized, t)

/-- The normalization invariant of spec §3: the bottom-right entry of the
warp equals 1 (exactly, in rational arithmetic). -/
def isNormalized (m : Mat3) : Prop := m.a22 = 1

theorem normalize_hom_normalized {A A' : Mat3} (h : normalize_hom A = some A') :
    isNormalized A' := by
  unfold normalize_hom at h
  by_cases h0 : A.a22 = 0
  · simp [h0] at h
  · simp only [h0, if_false, Option.some.injEq] at h
    subst h
    exact div_self h0

theorem minList_mem : ∀ {xs : List ℚ} {m : ℚ}, minList xs = some m → m ∈ xs := by
  intro xs
  induction xs with
  | nil => intro m h; simp [minList] at h
  | cons x xs ih =>
    intro m h
    unfold minList at h
    cases hx : minList xs with
    | none => rw [hx, Option.some.injEq] at h; subst h; exact List.mem_cons_self x xs
    | some m' =>
      rw [hx, Option.some.injEq] at h
      by_cases hle : x ≤ m'
      · simp only [hle, if_true] at h; subst h; exact List.mem_cons_self x xs
      · simp only [hle, if_false] at h; subst h
        exact List.mem_cons_of_mem x (ih hx)

theorem minList_cons_ne_none (x : ℚ) (xs : List ℚ) :
    minList (x :: xs) ≠ none := by
  unfold minList
  cases minList xs <;> simp

theorem minList_le : ∀ {xs : List ℚ} {m : ℚ}, minList xs = some m →
    ∀ y ∈ xs, m ≤ y := by
  intro xs
  induction xs with
  | nil => intro m h; simp [minList] at h
  | cons x xs ih =>
    intro m h y hy
    unfold minList at h
    cases hx : minList xs with
    | none =>
      rw [hx, Option.some.injEq] at h
      subst h
      cases xs with
      | nil =>
        rcases List.mem_cons.mp hy with hy | hy
        · subst hy; exact le_refl _
        · cases hy
      | cons z zs => exact absurd hx (minList_cons_ne_none z zs)
    | some m' =>
      rw [hx, Option.some.injEq] at h
      rcases List.mem_cons.mp hy with hy | hy
      · rw [hy]
        by_cases hle : x ≤ m'
        · simp only [hle, if_true] at h; subst h; exact le_refl x
        · simp only [hle, if_false] at h; subst h
          exact le_of_lt (lt_of_not_le hle)
      · have hm' := ih hx y hy
        by_cases hle : x ≤ m'
        · simp only [hle, if_true] at h; subst h; exact le_trans hle hm'
        · simp only [hle, if_false] at h; subst h; exact hm'

theorem selectIdx_lt_length {scores : List ℚ} {i : Nat}
    (h : selectIdx scores = some i) : i < scores.length := by
  unfold selectIdx at h
  cases hm : minList scores with
  | none => rw [hm] at h; cases h
  | some m =>
    rw [hm, Option.some.injEq] at h
    subst h
    exact List.findIdx_lt_length_of_exists ⟨m, minList_mem hm, beq_self_eq_true m⟩

theorem selectIdx_spec {scores : List ℚ} {i : Nat}
    (h : selectIdx scores = some i) :
    ∃ m, scores[i]? = some m ∧ (∀ y ∈ scores, m ≤ y) ∧
      ∀ j q, j < i → scores[j]? = some q → m < q := by
  have hlen := selectIdx_lt_length h
  unfold selectIdx at h
  cases hm : minList scores with
  | none => rw [hm] at h; cases h
  | some m =>
    rw [hm, Option.some.injEq] at h
    have hmem : m ∈ scores := minList_mem hm
    have hle := minList_le hm
    have hi : scores[i]? = some m := by
      subst h
      have := @List.findIdx_getElem _ (fun s => s == m) scores hlen
      rw [List.getElem?_eq_getElem hlen]
      exact congrArg some (by simpa using this)
    refine ⟨m, hi, hle, ?_⟩
    intro j q hj hq
    have hjl : j < scores.length := lt_trans hj hlen
    have hne : (scores.get ⟨j, hjl⟩ == m) = false := by
      subst h
      have := @List.not_of_lt_findIdx _ (fun s => s == m) scores j hj
      simpa using this
    have hqj : scores[j] = q := by
      rw [List.getElem?_eq_getElem hjl] at hq
      exact Option.some_inj.mp hq
    have hne' : q ≠ m := by
      intro e
      rw [List.get_eq_getElem, hqj, e] at hne
      simp at hne
    exact lt_of_le_of_ne (hle q (List.getElem?_mem hq)) (Ne.symm hne')

theorem candidateStep_some {env : Env α} {cfg : Config} {template : Patch}
    {frame : α} {warp : Mat3} {deltaI : List ℚ} {L : Learner} {pr : ℚ × Mat3}
    (h : candidateStep env cfg template frame warp deltaI L = some pr) :
    pr.2 = make_hom (ridgePredict L deltaI) ∧
    ∃ cw, normalize_hom (mat3Mul warp pr.2) = some cw ∧
      pr.1 = ssd (samplePatch env cfg frame (warpCorners cw)) template := by
  simp only [candidateStep] at h
  cases hn : normalize_hom (mat3Mul warp (make_hom (ridgePredict L deltaI))) with
  | none => rw [hn] at h; cases h
  | some cw =>
    rw [hn, Option.some.injEq] at h
    subst h
    exact ⟨rfl, cw, hn, rfl⟩

theorem collectCandidates_spec {env : Env α} {cfg : Config} {template : Patch}
    {frame : α} {warp : Mat3} {deltaI : List ℚ} :
    ∀ {Ls : List Learner} {prs : List (ℚ × Mat3)},
    collectCandidates env cfg template frame warp deltaI Ls = some prs →
    prs.length = Ls.length ∧
    ∀ (j : Nat) (L : Learner), Ls[j]? = some L → ∃ pr, prs[j]? = some pr ∧
      candidateStep env cfg template frame warp deltaI L = some pr := by
  intro Ls
  induction Ls with
  | nil =>
    intro prs h
    unfold collectCandidates at h
    rw [Option.some.injEq] at h
    subst h
    exact ⟨rfl, by intro j L hj; simp at hj⟩
  | cons L Ls ih =>
    intro prs h
    unfold collectCandidates at h
    cases hc : candidateStep env cfg template frame warp deltaI L with
    | none => rw [hc] at h; cases h
    | some pr =>
      rw [hc] at h
      cases hr : collectCandidates env cfg template frame warp deltaI Ls with
      | none => rw [hr] at h; cases h
      | some prs' =>
        rw [hr, Option.some.injEq] at h
        subst h
        obtain ⟨hlen, hidx⟩ := ih hr
        refine ⟨by simp [hlen], ?_⟩
        intro j L' hj
        cases j with
        | zero =>
          simp only [List.getElem?_cons_zero, Option.some.injEq] at hj
          subst hj
          exact ⟨pr, by simp, hc⟩
        | succ j =>
          simp only [List.getElem?_cons_succ] at hj ⊢
          exact hidx j L' hj

theorem collectCandidates_norm {env : Env α} {cfg : Config} {template : Patch}
    {frame : α} {warp : Mat3} {deltaI : List ℚ} :
    ∀ {Ls : List Learner} {prs : List (ℚ × Mat3)},
    collectCandidates env cfg template frame warp deltaI Ls = some prs →
    ∀ pr ∈ prs, ∃ cw, normalize_hom (mat3Mul warp pr.2) = some cw := by
  intro Ls
  induction Ls with
  | nil =>
    intro prs h pr hpr
    unfold collectCandidates at h
    rw [Option.some.injEq] at h
    subst h
    cases hpr
  | cons L Ls ih =>
    intro prs h pr hpr
    unfold collectCandidates at h
    cases hc : candidateStep env cfg template frame warp deltaI L with
    | none => rw [hc] at h; cases h
    | some pr0 =>
      rw [hc] at h
      cases hr : collectCandidates env cfg template frame warp deltaI Ls with
      | none => rw [hr] at h; cases h
      | some prs' =>
        rw [hr, Option.some.injEq] at h
        subst h
        rcases List.mem_cons.mp hpr with hpr | hpr
        · subst hpr
          obtain ⟨-, cw, hn, -⟩ := candidateStep_some hc
          exact ⟨cw, hn⟩
        · exact ih hr pr hpr

theorem updateIter_error_eq {env : Env α} {cfg : Config} {template : Patch}
    {learners : List Learner} {frame : α} {w we : Mat3}
    (h : updateIter env cfg template learners frame w = .error we) : we = w := by
  simp only [updateIter] at h
  cases hc : collectCandidates env cfg template frame w
      (patchSub (samplePatch env cfg frame (warpCorners w)) template) learners with
  | none =>
    simp only [hc] at h
    simp only [Except.error.injEq] at h
    exact h.symm
  | some prs =>
    simp only [hc] at h
    cases hs : selectIdx (prs.map Prod.fst) with
    | none =>
      simp only [hs] at h
      simp only [Except.error.injEq] at h
      exact h.symm
    | some idx =>
      simp only [hs] at h
      have hidx : idx < prs.length := by
        have := selectIdx_lt_length hs
        simpa using this
      have hgd : (prs.map Prod.snd).getD idx mat3Id = (prs.get ⟨idx, hidx⟩).2 := by
        rw [List.getD_eq_getElem?_getD, List.getElem?_map,
          List.getElem?_eq_getElem hidx]
        rfl
      simp only [hgd] at h
      obtain ⟨cw, hn⟩ := collectCandidates_norm hc _ (List.get_mem prs idx hidx)
      simp only [hn] at h
      cases h

theorem updateIter_ok_normalized {env : Env α} {cfg : Config} {template : Patch}
    {learners : List Learner} {frame : α} {w w' : Mat3}
    (h : updateIter env cfg template learners frame w = .ok w') :
    isNormalized w' := by
  simp only [updateIter] at h
  cases hc : collectCandidates env cfg template frame w
      (patchSub (samplePatch env cfg frame (warpCorners w)) template) learners with
  | none => simp only [hc] at h; cases h
  | some prs =>
    simp only [hc] at h
    cases hs : selectIdx (prs.map Prod.fst) with
    | none => simp only [hs] at h; cases h
    | some idx =>
      simp only [hs] at h
      cases hn : normalize_hom (mat3Mul w ((prs.map Prod.snd).getD idx mat3Id)) with
      | none => simp only [hn] at h; cases h
      | some w2 =>
        simp only [hn] at h
        simp only [Except.ok.injEq] at h
        subst h
        exact normalize_hom_normalized hn

theorem updateLoop_ok_normalized {env : Env α} {cfg : Config} {template : Patch}
    {learners : List Learner} {frame : α} :
    ∀ {n : Nat} {w w' : Mat3}, isNormalized w →
    updateLoop env cfg template learners frame n w = .ok w' →
    isNormalized w' := by
  intro n
  induction n with
  | zero =>
    intro w w' h0 h
    simp only [updateLoop, Except.ok.injEq] at h
    subst h
    exact h0
  | succ n ih =>
    intro w w' h0 h
    simp only [updateLoop] at h
    cases hi : updateIter env cfg template learners frame w with
    | error we => rw [hi] at h; cases h
    | ok w1 => rw [hi] at h; exact ih (updateIter_ok_normalized hi) h

theorem updateLoop_error_spec {env : Env α} {cfg : Config} {template : Patch}
    {learners : List Learner} {frame : α} :
    ∀ {n : Nat} {w we : Mat3},
    updateLoop env cfg template learners frame n w = .error we →
    ∃ k, k < n ∧ updateLoop env cfg template learners frame k w = .ok we ∧
      updateIter env cfg template learners frame we = .error we := by
  intro n
  induction n with
  | zero => intro w we h; simp only [updateLoop] at h; cases h
  | succ n ih =>
    intro w we h
    simp only [updateLoop] at h
    cases hi : updateIter env cfg template learners frame w with
    | error we' =>
      rw [hi] at h
      simp only [Except.error.injEq] at h
      subst h
      have hw := updateIter_error_eq hi
      subst hw
      exact ⟨0, Nat.succ_pos n, rfl, hi⟩
    | ok w1 =>
      rw [hi] at h
      obtain ⟨k, hk, hok, hit⟩ := ih h
      refine ⟨k + 1, Nat.succ_lt_succ hk, ?_, hit⟩
      simp only [updateLoop, hi]
      exact hok

theorem updateLoop_prefix_ok {env : Env α} {cfg : Config} {template : Patch}
    {learners : List Learner} {frame : α} :
    ∀ {n : Nat} {w wn : Mat3},
    updateLoop env cfg template learners frame n w = .ok wn →
    ∀ k, k ≤ n → ∃ wk, updateLoop env cfg template learners frame k w = .ok wk := by
  intro n
  induction n with
  | zero =>
    intro w wn h k hk
    have : k = 0 := Nat.le_zero.mp hk
    subst this
    exact ⟨wn, h⟩
  | succ n ih =>
    intro w wn h k hk
    simp only [updateLoop] at h
    cases hi : updateIter env cfg template learners frame w with
    | error we => rw [hi] at h; cases h
    | ok w1 =>
      rw [hi] at h
      cases k with
      | zero => exact ⟨w, rfl⟩
      | succ k =>
        obtain ⟨wk, hwk⟩ := ih h k (Nat.le_of_succ_le_succ hk)
        refine ⟨wk, ?_⟩
        simp only [updateLoop, hi]
        exact hwk

theorem synthTrials_spec {env : Env α} {cfg : Config} {frame : α} {warp : Mat3}
    {rand : Nat → Mat3} :
    ∀ {is : List Nat} {ps : List Patch} {hs : List Mat3},
    synthTrials env cfg frame warp rand is = some (ps, hs) →
    ps.length = is.length ∧ hs.length = is.length ∧
    ∀ (j i : Nat), is[j]? = some i →
      hs[j]? = some (rand i) ∧
      ∃ patch, synthTrial env cfg frame warp (rand i) = some patch ∧
        ps[j]? = some patch := by
  intro is
  induction is with
  | nil =>
    intro ps hs h
    simp only [synthTrials, Option.some.injEq, Prod.mk.injEq] at h
    obtain ⟨h1, h2⟩ := h
    subst h1
    subst h2
    refine ⟨rfl, rfl, ?_⟩
    intro j i hj
    simp at hj
  | cons i0 rest ih =>
    intro ps hs h
    simp only [synthTrials] at h
    cases ht : synthTrial env cfg frame warp (rand i0) with
    | none => simp only [ht] at h; cases h
    | some patch =>
      simp only [ht] at h
      cases hr : synthTrials env cfg frame warp rand rest with
      | none => simp only [hr] at h; cases h
      | some pr =>
        obtain ⟨ps1, hs1⟩ := pr
        simp only [hr, Option.some.injEq, Prod.mk.injEq] at h
        obtain ⟨h1, h2⟩ := h
        subst h1
        subst h2
        obtain ⟨hl1, hl2, hidx⟩ := ih hr
        refine ⟨by simp [hl1], by simp [hl2], ?_⟩
        intro j i hj
        cases j with
        | zero =>
          simp only [List.getElem?_cons_zero, Option.some.injEq] at hj
          subst hj
          exact ⟨by simp, patch, ht, by simp⟩
        | succ j =>
          simp only [List.getElem?_cons_succ] at hj ⊢
          exact hidx j i hj

/-- C6: for each motion scale, synthesis produces exactly `NUM_SYNTHESIS`
row-aligned training pairs; per trial with random homography `H = rand i`,
the disturbed warp is the normalization of `warp · H⁻¹`, the feature row
is the flattened difference of the disturbed normalized patch and the
template, and the target row is the first 8 entries of `H` flattened. -/
theorem synthesis_training_pairs (env : Env α) (cfg : Config) (frame : α)
    (warp : Mat3) (template : Patch) (rand : Nat → Mat3)
    (X Y : List (List ℚ))
    (h : synthScale env cfg frame warp template rand = some (X, Y)) :
    X.length = cfg.NUM_SYNTHESIS ∧ Y.length = cfg.NUM_SYNTHESIS ∧
    ∀ i : Nat, i < cfg.NUM_SYNTHESIS → ∃ Hinv dw,
      mat3Inv (rand i) = some Hinv ∧
      normalize_hom (mat3Mul warp Hinv) = some dw ∧
      X[i]? = some (patchSub (samplePatch env cfg frame (warpCorners dw))
        template) ∧
      Y[i]? = some (hFlat8 (rand i)) := by
  simp only [synthScale] at h
  cases hT : synthTrials env cfg frame warp rand
      (List.range cfg.NUM_SYNTHESIS) with
  | none => simp only [hT] at h; cases h
  | some pr =>
    obtain ⟨ps, hsW⟩ := pr
    simp only [hT, Option.some.injEq, Prod.mk.injEq] at h
    obtain ⟨h1, h2⟩ := h
    subst h1
    subst h2
    obtain ⟨hl1, hl2, hidx⟩ := synthTrials_spec hT
    refine ⟨by simp [hl1], by simp [hl2], ?_⟩
    intro i hi
    obtain ⟨hhs, patch, htrial, hps⟩ :=
      hidx i i (List.getElem?_range hi)
    simp only [synthTrial] at htrial
    cases hInv : mat3Inv (rand i) with
    | none => simp only [hInv] at htrial; cases htrial
    | some Hinv =>
      simp only [hInv] at htrial
      cases hNorm : normalize_hom (mat3Mul warp Hinv) with
      | none => simp only [hNorm] at htrial; cases htrial
      | some dw =>
        simp only [hNorm, Option.some.injEq] at htrial
        subst htrial
        refine ⟨Hinv, dw, rfl, hNorm, ?_, ?_⟩
        · rw [List.getElem?_map, hps]
          rfl
        · rw [List.getElem?_map, hhs]
          rfl

theorem update_not_initialized_state {env : Env α} {t : HyperplaneTracker α}
    {frame : α} (h : t.initialized = false) :
    update env t frame = .error (.NotInitialized, t) := by
  simp [update, h]

theorem update_error_cases {env : Env α} {t : HyperplaneTracker α} {frame : α}
    {e : TrackerError} {t1 : HyperplaneTracker α}
    (h : update env t frame = .error (e, t1)) :
    t1 = { t with warp := t1.warp } ∧
    ((e = .NotInitialized ∧ t1 = t) ∨
      (e = .NumericalFailure ∧ ∃ k, k < t.config.MAX_ITER ∧
        updateLoop env t.config t.template t.learners frame k t.warp =
          .ok t1.warp ∧
        updateIter env t.config t.template t.learners frame t1.warp =
          .error t1.warp)) := by
  by_cases hi : t.initialized
  · simp only [update] at h
    rw [if_pos hi] at h
    cases hL : updateLoop env t.config t.template t.learners frame
        t.config.MAX_ITER t.warp with
    | ok w => simp only [hL] at h; cases h
    | error we =>
      simp only [hL, Except.error.injEq, Prod.mk.injEq] at h
      obtain ⟨he, ht1⟩ := h
      subst ht1
      obtain ⟨k, hk, hok, hit⟩ := updateLoop_error_spec hL
      exact ⟨rfl, Or.inr ⟨he.symm, k, hk, hok, hit⟩⟩
  · have hi2 : t.initialized = false := by
      cases hb : t.initialized
      · rfl
      · exact absurd hb hi
    rw [update_not_initialized_state hi2] at h
    simp only [Except.error.injEq, Prod.mk.injEq] at h
    obtain ⟨he, ht1⟩ := h
    subst ht1
    exact ⟨rfl, Or.inl ⟨he.symm, rfl⟩⟩

theorem update_ok_cases {env : Env α} {t : HyperplaneTracker α} {frame : α}
    {t1 : HyperplaneTracker α} {corners : List (Int × Int)}
    (h : update env t frame = .ok (t1, corners)) :
    t.initialized = true ∧ t1 = { t with warp := t1.warp } ∧
    updateLoop env t.config t.template t.learners frame t.config.MAX_ITER
      t.warp = .ok t1.warp ∧
    corners = warpCorners t1.warp := by
  by_cases hi : t.initialized
  · simp only [update] at h
    rw [if_pos hi] at h
    cases hL : updateLoop env t.config t.template t.learners frame
        t.config.MAX_ITER t.warp with
    | error we => simp only [hL] at h; cases h
    | ok w =>
      simp only [hL, Except.ok.injEq, Prod.mk.injEq] at h
      obtain ⟨ht1, hcs⟩ := h
      subst ht1
      subst hcs
      exact ⟨hi, rfl, rfl, rfl⟩
  · simp only [update] at h
    rw [if_neg hi] at h
    cases h

theorem initialise_ok_shape {env : Env α} {rand : Nat → Mat3}
    {t : HyperplaneTracker α} {frame : α} {corners : List (Int × Int)}
    {t1 : HyperplaneTracker α}
    (h : initialise env rand t frame corners = .ok t1) :
    t1.warp = env.square_to_corners_warp corners ∧
    t1.initialized = true := by
  simp only [initialise] at h
  cases hS : synthesisAll env t.config frame
      (env.square_to_corners_warp corners)
      (samplePatch env t.config frame corners) rand
      (List.range t.config.MOTION_PARAMS.length) with
  | none => simp only [hS] at h; cases h
  | some XY =>
    obtain ⟨Xs, Ys⟩ := XY
    simp only [hS] at h
    cases hTr : trainAll env t.config Xs Ys with
    | error Ls => simp only [hTr] at h; cases h
    | ok Ls =>
      simp only [hTr, Except.ok.injEq] at h
      subst h
      exact ⟨rfl, rfl⟩

theorem initialise_error_shape {env : Env α} {rand : Nat → Mat3}
    {t : HyperplaneTracker α} {frame : α} {corners : List (Int × Int)}
    {e : TrackerError} {t1 : HyperplaneTracker α}
    (h : initialise env rand t frame corners = .error (e, t1)) :
    t1.warp = env.square_to_corners_warp corners ∧
    t1.initialized = t.initialized := by
  simp only [initialise] at h
  cases hS : synthesisAll env t.config frame
      (env.square_to_corners_warp corners)
      (samplePatch env t.config frame corners) rand
      (List.range t.config.MOTION_PARAMS.length) with
  | none =>
    simp only [hS, Except.error.injEq, Prod.mk.injEq] at h
    obtain ⟨-, ht1⟩ := h
    subst ht1
    exact ⟨rfl, rfl⟩
  | some XY =>
    obtain ⟨Xs, Ys⟩ := XY
    simp only [hS] at h
    cases hTr : trainAll env t.config Xs Ys with
    | error Ls =>
      simp only [hTr, Except.error.injEq, Prod.mk.injEq] at h
      obtain ⟨-, ht1⟩ := h
      subst ht1
      exact ⟨rfl, rfl⟩
    | ok Ls => simp only [hTr] at h; cases h

theorem warpCorners_length (w : Mat3) : (warpCorners w).length = 4 := rfl

/-- C1: in every iteration of `update`, each motion scale's candidate is
scored by the sum of squared pixel differences between the candidate patch
and the template, the committed update is the candidate with the minimum
score, and on exact ties the candidate of the lowest-indexed motion scale
wins. -/
theorem update_greedy_selection (env : Env α) (cfg : Config) (template : Patch)
    (learners : List Learner) (frame : α) (warp : Mat3)
    (prs : List (ℚ × Mat3)) (i : Nat)
    (hc : collectCandidates env cfg template frame warp
      (patchSub (samplePatch env cfg frame (warpCorners warp)) template)
      learners = some prs)
    (hs : selectIdx (prs.map Prod.fst) = some i) :
    (∀ (j : Nat) (L : Learner), learners[j]? = some L → ∃ pr cw,
      prs[j]? = some pr ∧
      pr.2 = make_hom (ridgePredict L
        (patchSub (samplePatch env cfg frame (warpCorners warp)) template)) ∧
      normalize_hom (mat3Mul warp pr.2) = some cw ∧
      pr.1 = ssd (samplePatch env cfg frame (warpCorners cw)) template) ∧
    (∃ sm, (prs.map Prod.fst)[i]? = some sm ∧
      (∀ q ∈ prs.map Prod.fst, sm ≤ q) ∧
      ∀ (j : Nat) (q : ℚ), j < i → (prs.map Prod.fst)[j]? = some q →
        sm < q) ∧
    (∃ w1, updateIter env cfg template learners frame warp = .ok w1 ∧
      normalize_hom (mat3Mul warp ((prs.map Prod.snd).getD i mat3Id)) =
        some w1) := by
  obtain ⟨hlen, hidx⟩ := collectCandidates_spec hc
  refine ⟨?_, selectIdx_spec hs, ?_⟩
  · intro j L hj
    obtain ⟨pr, hpr, hstep⟩ := hidx j L hj
    obtain ⟨h2, cw, hn, h1⟩ := candidateStep_some hstep
    exact ⟨pr, cw, hpr, h2, hn, h1⟩
  · have hil : i < prs.length := by
      have := selectIdx_lt_length hs
      simpa using this
    have hgd : (prs.map Prod.snd).getD i mat3Id = (prs.get ⟨i, hil⟩).2 := by
      rw [List.getD_eq_getElem?_getD, List.getElem?_map,
        List.getElem?_eq_getElem hil]
      rfl
    obtain ⟨cw, hn⟩ := collectCandidates_norm hc _ (List.get_mem prs i hil)
    refine ⟨cw, ?_, by rw [hgd]; exact hn⟩
    simp only [updateIter, hc, hs, hgd, hn]

/-- C2: on a tracker whose `initialized` flag is false, `update` fails
with the `NotInitialized` error, returns no corners, and leaves the
tracker state exactly as it was. -/
theorem update_requires_initialised (env : Env α) (t : HyperplaneTracker α)
    (frame : α) (h : t.initialized = false) :
    update env t frame = .error (.NotInitialized, t) :=
  update_not_initialized_state h

/-- C3: every `update` error leaves the tracker with only its warp
possibly different, and that warp is either the incoming one (the
`NotInitialized` guard) or exactly the value committed by some fully
completed prefix of iterations whose successor iteration failed — never a
composed-but-unnormalized intermediate. -/
theorem update_atomic_warp (env : Env α) (t : HyperplaneTracker α)
    (frame : α) (e : TrackerError) (t1 : HyperplaneTracker α)
    (h : update env t frame = .error (e, t1)) :
    t1 = { t with warp := t1.warp } ∧
    ((e = .NotInitialized ∧ t1 = t) ∨
      (e = .NumericalFailure ∧ ∃ k, k < t.config.MAX_ITER ∧
        updateLoop env t.config t.template t.learners frame k t.warp =
          .ok t1.warp ∧
        updateIter env t.config t.template t.learners frame t1.warp =
          .error t1.warp)) :=
  update_error_cases h

/-- C4: every successful `update` runs exactly the fixed `MAX_ITER`
iteration budget — every prefix of the loop completes, there is no early
exit — and returns the image of the canonical unit square under the final
warp, rounded to integer pixel coordinates, as 4 integer 2-D corners. -/
theorem update_runs_full_budget (env : Env α) (t : HyperplaneTracker α)
    (frame : α) (t1 : HyperplaneTracker α) (corners : List (Int × Int))
    (h : update env t frame = .ok (t1, corners)) :
    t.initialized = true ∧
    updateLoop env t.config t.template t.learners frame t.config.MAX_ITER
      t.warp = .ok t1.warp ∧
    (∀ k, k ≤ t.config.MAX_ITER → ∃ wk,
      updateLoop env t.config t.template t.learners frame k t.warp =
        .ok wk) ∧
    corners = warpCorners t1.warp ∧
    corners.length = 4 := by
  obtain ⟨hi, -, hL, hcs⟩ := update_ok_cases h
  exact ⟨hi, hL, fun k hk => updateLoop_prefix_ok hL k hk, hcs,
    by rw [hcs]; exact warpCorners_length t1.warp⟩

/-- C5: the warp invariant — bottom-right entry exactly 1 — holds for the
warp installed by `initialise` (whose construction is the geometry
module's, assumed to deliver normalized warps) and is preserved by every
committed iteration and every `update` outcome; each commitment builds a
new matrix via `normalize_hom` rather than editing entries in place. -/
theorem warp_always_normalized (env : Env α)
    (hg : ∀ cs, isNormalized (env.square_to_corners_warp cs)) :
    (∀ (rand : Nat → Mat3) (t : HyperplaneTracker α) (frame : α)
      (corners : List (Int × Int)) (t1 : HyperplaneTracker α),
      initialise env rand t frame corners = .ok t1 → isNormalized t1.warp) ∧
    (∀ (rand : Nat → Mat3) (t : HyperplaneTracker α) (frame : α)
      (corners : List (Int × Int)) (e : TrackerError)
      (t1 : HyperplaneTracker α),
      initialise env rand t frame corners = .error (e, t1) →
      isNormalized t1.warp) ∧
    (∀ (cfg : Config) (template : Patch) (learners : List Learner)
      (frame : α) (w w1 : Mat3),
      updateIter env cfg template learners frame w = .ok w1 →
      isNormalized w1) ∧
    (∀ (t : HyperplaneTracker α) (frame : α) (t1 : HyperplaneTracker α)
      (cs : List (Int × Int)), isNormalized t.warp →
      update env t frame = .ok (t1, cs) → isNormalized t1.warp) ∧
    (∀ (t : HyperplaneTracker α) (frame : α) (e : TrackerError)
      (t1 : HyperplaneTracker α), isNormalized t.warp →
      update env t frame = .error (e, t1) → isNormalized t1.warp) := by
  refine ⟨?_, ?_, fun cfg template learners frame w w1 h =>
    updateIter_ok_normalized h, ?_, ?_⟩
  · intro rand t frame corners t1 h
    rw [isNormalized, (initialise_ok_shape h).1]
    exact hg corners
  · intro rand t frame corners e t1 h
    rw [isNormalized, (initialise_error_shape h).1]
    exact hg corners
  · intro t frame t1 cs h0 h
    obtain ⟨-, -, hL, -⟩ := update_ok_cases h
    exact updateLoop_ok_normalized h0 hL
  · intro t frame e t1 h0 h
    obtain ⟨-, hcase⟩ := update_error_cases h
    rcases hcase with ⟨-, ht1⟩ | ⟨-, k, -, hok, -⟩
    · subst ht1; exact h0
    · exact updateLoop_ok_normalized h0 hok

/-- C7 (as amended): `initialise` performs no degeneracy check on the
input corners — its only outcomes are success, a synthesis numerical
failure, or a training failure; it never signals `InvalidGeometry`. -/
theorem initialise_never_invalid_geometry (env : Env α) (rand : Nat → Mat3)
    (t : HyperplaneTracker α) (frame : α) (corners : List (Int × Int)) :
    (∃ t1, initialise env rand t frame corners = .ok t1) ∨
    (∃ t1, initialise env rand t frame corners =
      .error (.NumericalFailure, t1)) ∨
    (∃ t1, initialise env rand t frame corners =
      .error (.TrainingFailure, t1)) := by
  cases hS : synthesisAll env t.config frame
      (env.square_to_corners_warp corners)
      (samplePatch env t.config frame corners) rand
      (List.range t.config.MOTION_PARAMS.length) with
  | none =>
    exact Or.inr (Or.inl ⟨_, by simp only [initialise, hS]; rfl⟩)
  | some XY =>
    obtain ⟨Xs, Ys⟩ := XY
    cases hTr : trainAll env t.config Xs Ys with
    | error Ls =>
      exact Or.inr (Or.inr ⟨_, by simp only [initialise, hS, hTr]; rfl⟩)
    | ok Ls =>
      exact Or.inl ⟨_, by simp only [initialise, hS, hTr]; rfl⟩

/-- C8: `initialized` becomes true exactly on a fully successful
synthesis-and-training pass; any `initialise` failure and any `update`
outcome leave the flag as it was, so a tracker never transitions back to
uninitialized. -/
theorem flag_monotone (env : Env α) :
    (∀ (rand : Nat → Mat3) (t : HyperplaneTracker α) (frame : α)
      (corners : List (Int × Int)) (e : TrackerError)
      (t1 : HyperplaneTracker α),
      initialise env rand t frame corners = .error (e, t1) →
      t1.initialized = t.initialized) ∧
    (∀ (rand : Nat → Mat3) (t : HyperplaneTracker α) (frame : α)
      (corners : List (Int × Int)) (t1 : HyperplaneTracker α),
      initialise env rand t frame corners = .ok t1 →
      t1.initialized = true) ∧
    (∀ (t : HyperplaneTracker α) (frame : α) (e : TrackerError)
      (t1 : HyperplaneTracker α),
      update env t frame = .error (e, t1) → t1.initialized = t.initialized) ∧
    (∀ (t : HyperplaneTracker α) (frame : α) (t1 : HyperplaneTracker α)
      (cs : List (Int × Int)),
      update env t frame = .ok (t1, cs) → t1.initialized = t.initialized) := by
  refine ⟨?_, ?_, ?_, ?_⟩
  · intro rand t frame corners e t1 h
    exact (initialise_error_shape h).2
  · intro rand t frame corners t1 h
    exact (initialise_ok_shape h).2
  · intro t frame e t1 h
    obtain ⟨ht1, -⟩ := update_error_cases h
    rw [ht1]
  · intro t frame t1 cs h
    obtain ⟨-, ht1, -, -⟩ := update_ok_cases h
    rw [ht1]

/-- The caller-observable outcome of an `update` call: the error code on
failure, the returned corners on success. -/
def updateObs
    (r : Except (TrackerError × HyperplaneTracker α)
      (HyperplaneTracker α × List (Int × Int))) :
    Except TrackerError (List (Int × Int)) :=
  match r with
  | .ok (_, cs) => .ok cs
  | .error (e, _) => .error e

/-- C9: `update` draws no randomness — its embedding takes no random
stream, unlike `initialise` — and its observable outcome is a function of
exactly the state `update` reads (`initialized`, `config`, `warp`,
`template`, `learners`) and the frame argument: two trackers agreeing on
those fields produce identical outcomes, whatever their other fields. -/
theorem update_deterministic_obs (env : Env α)
    (t1 t2 : HyperplaneTracker α) (frame : α)
    (h0 : t1.initialized = t2.initialized) (h1 : t1.config = t2.config)
    (h2 : t1.warp = t2.warp) (h3 : t1.template = t2.template)
    (h4 : t1.learners = t2.learners) :
    updateObs (update env t1 frame) = updateObs (update env t2 frame) := by
  simp only [update, h0, h1, h2, h3, h4]
  cases t2.initialized
  · simp [updateObs]
  · simp only [if_true]
    cases hL : updateLoop env t2.config t2.template t2.learners frame
        t2.config.MAX_ITER t2.warp with
    | error we => simp [updateObs, hL]
    | ok w => simp [updateObs, hL]

/-- C10: a successful `update` replaces only the warp — template, stored
frame reference, trained learners, configuration and the `initialized`
flag all survive unchanged. -/
theorem update_touches_only_warp (env : Env α) (t : HyperplaneTracker α)
    (frame : α) (t1 : HyperplaneTracker α) (corners : List (Int × Int))
    (h : update env t frame = .ok (t1, corners)) :
    t1.template = t.template ∧ t1.frame = t.frame ∧
    t1.learners = t.learners ∧ t1.config = t.config ∧
    t1.initialized = t.initialized := by
  obtain ⟨-, ht1, -, -⟩ := update_ok_cases h
  rw [ht1]
  exact ⟨rfl, rfl, rfl, rfl, rfl⟩

/-- A minimal configuration: one motion scale, one synthetic sample, one
refinement iteration, 1×1 patches. -/
def cfgOne : Config :=
  { REGION_SHAPE := (1, 1), Np := 1, MOTION_PARAMS := [(1, 1)],
    NUM_SYNTHESIS := 1, LAMBD := 1, MAX_ITER := 1, DEBUG := false }

/-- A trained learner with empty weights: it predicts the empty parameter
vector, which `make_hom` expands with default entries. -/
def learner0 : Learner := { coef := [], intercept := [] }

/-- A concrete environment over unit frames: constant sampling, identity
patch normalization, identity warp construction, always-succeeding fit. -/
def envOk : Env Unit :=
  { sample_region := fun _ _ _ _ => [0]
    normalize_minmax := fun p => p
    square_to_corners_warp := fun _ => mat3Id
    ridgeFit := fun _ _ _ => some learner0 }

/-- A degenerate random stream: every draw is the identity homography. -/
def randId : Nat → Mat3 := fun _ => mat3Id

/-- A freshly constructed, never-initialized tracker. -/
def tFresh : HyperplaneTracker Unit := mkTracker cfgOne ()

/-- A fully collapsed quadrilateral: all four corners coincide. -/
def cornersCollapsed : List (Int × Int) := [(0, 0), (0, 0), (0, 0), (0, 0)]

/-- The warp `make_hom []`: zero entries with the fixed bottom-right 1. -/
def warp0 : Mat3 := ⟨0, 0, 0, 0, 0, 0, 0, 0, 1⟩

/-- The tracker state after a successful `initialise` of `tFresh` on a
unit frame through `envOk`. -/
def tReady : HyperplaneTracker Unit :=
  { config := cfgOne, initialized := true, frame := (), warp := mat3Id,
    template := [0], learners := [learner0] }

/-- The state `tReady` reaches after one successful `update`. -/
def tAfter : HyperplaneTracker Unit := { tReady with warp := warp0 }

/-- The configuration `cfgOne` with no motion scales at all. -/
def cfgNoScale : Config := { cfgOne with MOTION_PARAMS := [] }

/-- An initialized tracker with an empty learner list (no motion scales):
its first refinement iteration fails at the empty-minimum selection. -/
def tNoLearner : HyperplaneTracker Unit :=
  { config := cfgNoScale, initialized := true, frame := (), warp := mat3Id,
    template := [0], learners := [] }

/-- The environment `envOk` with a ridge fit that always fails. -/
def envFitFail : Env Unit := { envOk with ridgeFit := fun _ _ _ => none }

/-- The state a failed `initialise` of `tFresh` through `envFitFail`
leaves behind: template and warp installed, flag still false. -/
def tFail8 : HyperplaneTracker Unit :=
  { config := cfgOne, initialized := false, frame := (), warp := mat3Id,
    template := [0], learners := [] }

/-- The environment `envOk` over boolean frames. -/
def envOkB : Env Bool :=
  { sample_region := fun _ _ _ _ => [0]
    normalize_minmax := fun p => p
    square_to_corners_warp := fun _ => mat3Id
    ridgeFit := fun _ _ _ => some learner0 }

/-- An initialized tracker over boolean frames whose stored frame
reference is `true`. -/
def t9a : HyperplaneTracker Bool :=
  { config := cfgOne, initialized := true, frame := true, warp := mat3Id,
    template := [0], learners := [learner0] }

/-- The tracker `t9a` with only its stored frame reference changed. -/
def t9b : HyperplaneTracker Bool := { t9a with frame := false }

/-- Spot check for C1 at a two-way exact tie: both learners propose the
same candidate with equal scores and the first (index 0) is committed. -/
theorem update_greedy_selection_spot :
    ∃ w1, updateIter envOk cfgOne [0] [learner0, learner0] () mat3Id =
      .ok w1 ∧
    normalize_hom (mat3Mul mat3Id
      (([((0 : ℚ), warp0), (0, warp0)].map Prod.snd).getD 0 mat3Id)) =
      some w1 :=
  (update_greedy_selection envOk cfgOne [0] [learner0, learner0] () mat3Id
    [((0 : ℚ), warp0), (0, warp0)] 0
    (by simp [collectCandidates, candidateStep, samplePatch, warpCorners,
      mat3Mul, mat3Id, make_hom, ridgePredict, dotQ, ssd, patchSub,
      normalize_hom, apply_to_pts, applyPt, _SQUARE, roundPts, envOk,
      cfgOne, learner0, warp0])
    (by simp [selectIdx, minList, List.findIdx_cons, beq_self_eq_true])).2.2

/-- Spot check for C2 on the freshly constructed tracker. -/
theorem update_requires_initialised_spot :
    update envOk tFresh () = .error (.NotInitialized, tFresh) :=
  update_requires_initialised envOk tFresh () rfl

/-- Spot check for C3 on a failing `update`: the aborted call leaves the
tracker exactly at its incoming state. -/
theorem update_atomic_warp_spot :
    tNoLearner = { tNoLearner with warp := tNoLearner.warp } ∧
    ((TrackerError.NumericalFailure = TrackerError.NotInitialized ∧
        tNoLearner = tNoLearner) ∨
      (TrackerError.NumericalFailure = TrackerError.NumericalFailure ∧
        ∃ k, k < tNoLearner.config.MAX_ITER ∧
          updateLoop envOk tNoLearner.config tNoLearner.template
            tNoLearner.learners () k tNoLearner.warp = .ok tNoLearner.warp ∧
          updateIter envOk tNoLearner.config tNoLearner.template
            tNoLearner.learners () tNoLearner.warp =
            .error tNoLearner.warp)) :=
  update_atomic_warp envOk tNoLearner () .NumericalFailure tNoLearner
    (by simp [update, updateLoop, updateIter, collectCandidates, selectIdx,
      minList, samplePatch, warpCorners, mat3Mul, mat3Id, apply_to_pts,
      applyPt, _SQUARE, roundPts, patchSub, envOk, tNoLearner, cfgNoScale,
      cfgOne])

/-- Spot check for C4 on a successful `update` of `tReady`. -/
theorem update_runs_full_budget_spot :
    tReady.initialized = true ∧
    updateLoop envOk tReady.config tReady.template tReady.learners ()
      tReady.config.MAX_ITER tReady.warp = .ok tAfter.warp ∧
    [((0 : Int), (0 : Int)), (0, 0), (0, 0), (0, 0)] =
      warpCorners tAfter.warp ∧
    ([((0 : Int), (0 : Int)), (0, 0), (0, 0), (0, 0)]).length = 4 := by
  have h := update_runs_full_budget envOk tReady () tAfter
    [((0 : Int), (0 : Int)), (0, 0), (0, 0), (0, 0)]
    (by simp [update, updateLoop, updateIter, collectCandidates,
      candidateStep, selectIdx, minList, samplePatch, warpCorners, mat3Mul,
      mat3Id, make_hom, ridgePredict, dotQ, ssd, patchSub, normalize_hom,
      apply_to_pts, applyPt, _SQUARE, roundPts, envOk, tReady, tAfter,
      cfgOne, learner0, warp0, List.findIdx_cons, beq_self_eq_true])
  exact ⟨h.1, h.2.1, h.2.2.2.1, h.2.2.2.2⟩

/-- Spot check for C5: the warp installed by a concrete successful
`initialise` carries the normalization invariant. -/
theorem warp_always_normalized_spot : isNormalized tReady.warp :=
  (warp_always_normalized envOk (fun _ => rfl)).1 randId tFresh ()
    cornersCollapsed tReady
    (by simp [initialise, synthesisAll, synthScale, synthTrials, synthTrial,
      trainAll, samplePatch, warpCorners, mat3Inv, mat3Det, mat3Mul, mat3Id,
      normalize_hom, apply_to_pts, applyPt, _SQUARE, roundPts, patchSub,
      hFlat8, envOk, cfgOne, tFresh, mkTracker, randId, cornersCollapsed,
      tReady, learner0, List.range_succ])

/-- Spot check for C6 on one concrete synthesis run of a single trial. -/
theorem synthesis_training_pairs_spot :
    ([[(0 : ℚ)]]).length = cfgOne.NUM_SYNTHESIS ∧
    ∃ Hinv dw, mat3Inv (randId 0) = some Hinv ∧
      normalize_hom (mat3Mul mat3Id Hinv) = some dw ∧
      ([[(0 : ℚ)]])[0]? =
        some (patchSub (samplePatch envOk cfgOne () (warpCorners dw))
          [0]) ∧
      ([[(1 : ℚ), 0, 0, 0, 1, 0, 0, 0]])[0]? = some (hFlat8 (randId 0)) := by
  have h := synthesis_training_pairs envOk cfgOne () mat3Id [0] randId
    [[(0 : ℚ)]] [[(1 : ℚ), 0, 0, 0, 1, 0, 0, 0]]
    (by simp [synthScale, synthTrials, synthTrial, samplePatch, warpCorners,
      mat3Inv, mat3Det, mat3Mul, mat3Id, normalize_hom, apply_to_pts,
      applyPt, _SQUARE, roundPts, patchSub, hFlat8, envOk, cfgOne, randId,
      List.range_succ])
  exact ⟨h.1, h.2.2 0 (by decide)⟩

/-- Counterexample for C7 as stated: `initialise` on a fully collapsed
(degenerate) quadrilateral does not fail with `InvalidGeometry` — it
completes successfully. -/
theorem initialise_collapsed_corners_ok :
    initialise envOk randId tFresh () cornersCollapsed = .ok tReady := by
  simp [initialise, synthesisAll, synthScale, synthTrials, synthTrial,
    trainAll, samplePatch, warpCorners, mat3Inv, mat3Det, mat3Mul, mat3Id,
    normalize_hom, apply_to_pts, applyPt, _SQUARE, roundPts, patchSub,
    hFlat8, envOk, cfgOne, tFresh, mkTracker, randId, cornersCollapsed,
    tReady, learner0, List.range_succ]

/-- Spot check for C8 on a concrete failing `initialise`: the flag stays
exactly as it was on the fresh tracker. -/
theorem flag_monotone_spot :
    initialise envFitFail randId tFresh () cornersCollapsed =
      .error (.TrainingFailure, tFail8) ∧
    tFail8.initialized = tFresh.initialized :=
  have hEq : initialise envFitFail randId tFresh () cornersCollapsed =
      .error (.TrainingFailure, tFail8) := by
    simp [initialise, synthesisAll, synthScale, synthTrials, synthTrial,
      trainAll, samplePatch, warpCorners, mat3Inv, mat3Det, mat3Mul, mat3Id,
      normalize_hom, apply_to_pts, applyPt, _SQUARE, roundPts, patchSub,
      hFlat8, envFitFail, envOk, cfgOne, tFresh, mkTracker, randId,
      cornersCollapsed, tFail8, List.range_succ]
  ⟨hEq, (flag_monotone envFitFail).1 randId tFresh () cornersCollapsed
    .TrainingFailure tFail8 hEq⟩

/-- Spot check for C9: two trackers differing only in the stored frame
reference produce the same observable `update` outcome. -/
theorem update_deterministic_obs_spot :
    updateObs (update envOkB t9a false) = updateObs (update envOkB t9b false) :=
  update_deterministic_obs envOkB t9a t9b false rfl rfl rfl rfl rfl

/-- Spot check for C10 on the successful `update` of `tReady`. -/
theorem update_touches_only_warp_spot :
    tAfter.template = tReady.template ∧ tAfter.frame = tReady.frame ∧
    tAfter.learners = tReady.learners ∧ tAfter.config = tReady.config ∧
    tAfter.initialized = tReady.initialized :=
  update_touches_only_warp envOk tReady () tAfter
    [((0 : Int), (0 : Int)), (0, 0), (0, 0), (0, 0)]
    (by simp [update, updateLoop, updateIter, collectCandidates,
      candidateStep, selectIdx, minList, samplePatch, warpCorners, mat3Mul,
      mat3Id, make_hom, ridgePredict, dotQ, ssd, patchSub, normalize_hom,
      apply_to_pts, applyPt, _SQUARE, roundPts, envOk, tReady, tAfter,
      cfgOne, learner0, warp0, List.findIdx_cons, beq_self_eq_true])

end HyperTrack
